import Mathlib

/-!
Verification of the bulk bill-lookup pipeline of this repository.

The development shallowly embeds the pipeline of
`netlify/functions/get-bills.ts` (canonical Netlify handler), its edge
variant `netlify/functions/api/check-electricity/bulk.js`, and the
duplicated variant of `fetchWithTimeoutAndRetry` found in
`src/unnamed/part_002` (lines 536-572).

JavaScript runtime values are modelled by the mutual inductives
`JsVal` / `JsList` / `JsFields`.  Finite JS numbers are modelled as
integers (all monetary amounts in this domain are integral); the single
`nan` constructor stands for every non-finite number, which is all
`Number.isFinite` distinguishes.  Property access, truthiness, `||`,
`??`, `String(...)`, `Number(...)`, `JSON.parse` and `JSON.stringify`
are embedded as total structural functions mirroring the JavaScript
semantics on this value space.
-/

set_option maxRecDepth 40000

mutual

/-- Model of a JavaScript runtime value as produced/consumed by the
handlers.  `undefined` is JavaScript `undefined` (absent property), `nan`
stands for any non-finite number. -/
inductive JsVal : Type where
  | null
  | undefined
  | bool (b : Bool)
  | num (n : Int)
  | nan
  | str (s : String)
  | arr (elems : JsList)
  | obj (fields : JsFields)

/-- Elements of a JavaScript array value. -/
inductive JsList : Type where
  | nil
  | cons (head : JsVal) (tail : JsList)

/-- Key/value fields of a JavaScript object value. -/
inductive JsFields : Type where
  | nil
  | cons (key : String) (val : JsVal) (tail : JsFields)

end

instance : Inhabited JsVal := ⟨JsVal.undefined⟩

/-- Build an array value from a Lean list (notation helper for
concrete payloads). -/
def jsListOf : List JsVal → JsList
  | [] => .nil
  | v :: rest => .cons v (jsListOf rest)

/-- Build object fields from a Lean association list (notation helper
for concrete payloads). -/
def jsFieldsOf : List (String × JsVal) → JsFields
  | [] => .nil
  | (k, v) :: rest => .cons k v (jsFieldsOf rest)

/-- Array value from a Lean list. -/
def jsArr (l : List JsVal) : JsVal := .arr (jsListOf l)

/-- Object value from a Lean association list. -/
def jsObj (l : List (String × JsVal)) : JsVal := .obj (jsFieldsOf l)

/-- Lookup of a key among object fields (first occurrence). -/
def jFindField : JsFields → String → Option JsVal
  | .nil, _ => none
  | .cons k v rest, key => if k = key then some v else jFindField rest key

/-- Property access `v?.k` / `v.k`: the field of an object, and
`undefined` for a missing field or a non-object receiver (all receivers
reached in the embedded code are either optional-chained or known
non-nullish, so no TypeError path is reachable). -/
def jGet (v : JsVal) (key : String) : JsVal :=
  match v with
  | .obj fields => (jFindField fields key).getD .undefined
  | _ => .undefined

/-- JavaScript truthiness of a value. -/
def jTruthy : JsVal → Bool
  | .null => false
  | .undefined => false
  | .bool b => b
  | .num n => n != 0
  | .nan => false
  | .str s => s != ""
  | .arr _ => true
  | .obj _ => true

/-- JavaScript `a || b`. -/
def jOr (a b : JsVal) : JsVal := if jTruthy a then a else b

/-- JavaScript `a ?? b` (nullish coalescing). -/
def jNullish (a b : JsVal) : JsVal :=
  match a with
  | .null => b
  | .undefined => b
  | _ => a

/-- Field update: replace the value of an existing key in place,
otherwise append the key, as JavaScript property assignment does. -/
def setField : JsFields → String → JsVal → JsFields
  | .nil, key, v => .cons key v .nil
  | .cons k0 v0 rest, key, v =>
    if k0 = key then .cons k0 v rest else .cons k0 v0 (setField rest key v)

/-- JavaScript property update `o.k = v`; a non-object receiver is
returned unchanged (the embedded code only assigns to objects). -/
def objSet (v : JsVal) (key : String) (val : JsVal) : JsVal :=
  match v with
  | .obj fields => .obj (setField fields key val)
  | other => other

/-- Characters treated as whitespace by JavaScript string trimming and
`Number(...)` coercion (ASCII subset; the exotic Unicode space code
points do not occur in this domain). -/
def jsWhitespace (c : Char) : Bool :=
  c = ' ' ∨ c = '\t' ∨ c = '\n' ∨ c = '\r' ∨ c = '\x0b' ∨ c = '\x0c'

/-- Model of `s.trim()`. -/
def jsTrim (s : String) : String :=
  ⟨(((s.toList.dropWhile jsWhitespace).reverse.dropWhile jsWhitespace).reverse)⟩

/-- Model of `s.slice(0, n)`. -/
def strTake (s : String) (n : Nat) : String := ⟨s.toList.take n⟩

mutual

/-- String coercion `String(v)`.  An array stringifies as the
comma-join of its elements with `null`/`undefined` elements empty. -/
def jToString : JsVal → String
  | .null => "null"
  | .undefined => "undefined"
  | .bool b => if b then "true" else "false"
  | .num n => toString n
  | .nan => "NaN"
  | .str s => s
  | .arr elems => String.intercalate "," (jToStringElems elems)
  | .obj _ => "[object Object]"

/-- Element strings for array coercion. -/
def jToStringElems : JsList → List String
  | .nil => []
  | .cons e rest =>
    (match e with
     | .null => ""
     | .undefined => ""
     | e2 => jToString e2) :: jToStringElems rest

end

/-- Numeric parse of a string as by JavaScript `Number(s)`: surrounding
whitespace ignored, empty string is `0`, an optional sign followed by
decimal digits is the integer value, anything else is NaN (`none`).
Fractional / exponent / hex literals are outside the modelled domain
(all amounts in this domain are integral decimal strings). -/
def strToNumber (s : String) : Option Int :=
  let t := jsTrim s
  if t = "" then some 0
  else
    let (sign, digits) :=
      match t.toList with
      | '-' :: rest => ((-1 : Int), rest)
      | '+' :: rest => ((1 : Int), rest)
      | l => ((1 : Int), l)
    if digits ≠ [] ∧ digits.all Char.isDigit then
      some (sign * (digits.foldl (fun acc c => acc * 10 + (c.toNat - '0'.toNat)) (0 : Nat) : Nat))
    else none

/-- Numeric coercion `Number(v)`; `none` models a non-finite result.
An array coerces through its joined string form: empty array to `0`,
singleton to its element's coercion, longer arrays to NaN. -/
def toNumber : JsVal → Option Int
  | .null => some 0
  | .undefined => none
  | .bool b => some (if b then 1 else 0)
  | .num n => some n
  | .nan => none
  | .str s => strToNumber s
  | .arr .nil => some 0
  | .arr (.cons e .nil) => toNumber e
  | .arr _ => none
  | .obj _ => none

/-- Embeds `safeNumber` of get-bills.ts (lines 49-52): coerce with
`Number(...)` and replace any non-finite result by `0`. -/
def safeNumber (v : JsVal) : Int :=
  match toNumber v with
  | some n => n
  | none => 0

/-! JSON parsing, modelling the runtime `JSON.parse`.  Non-integral
number literals are outside the modelled domain (monetary amounts in
this repository are integral).  Duplicate object keys keep the last
occurrence, as in JavaScript. -/

/-- Skip JSON whitespace. -/
def skipWs : List Char → List Char
  | c :: rest =>
    if c = ' ' ∨ c = '\t' ∨ c = '\n' ∨ c = '\r' then skipWs rest else c :: rest
  | [] => []

/-- Hexadecimal digit value. -/
def hexVal (c : Char) : Option Nat :=
  if c.isDigit then some (c.toNat - '0'.toNat)
  else if 'a' ≤ c ∧ c ≤ 'f' then some (c.toNat - 'a'.toNat + 10)
  else if 'A' ≤ c ∧ c ≤ 'F' then some (c.toNat - 'A'.toNat + 10)
  else none

/-- Parse the body of a JSON string literal after the opening quote. -/
def parseStrBody : List Char → List Char → Option (String × List Char)
  | _, [] => none
  | acc, '"' :: rest => some (⟨acc.reverse⟩, rest)
  | acc, '\\' :: rest =>
    match rest with
    | '"' :: r => parseStrBody ('"' :: acc) r
    | '\\' :: r => parseStrBody ('\\' :: acc) r
    | '/' :: r => parseStrBody ('/' :: acc) r
    | 'n' :: r => parseStrBody ('\n' :: acc) r
    | 't' :: r => parseStrBody ('\t' :: acc) r
    | 'r' :: r => parseStrBody ('\r' :: acc) r
    | 'b' :: r => parseStrBody ('\x08' :: acc) r
    | 'f' :: r => parseStrBody ('\x0c' :: acc) r
    | 'u' :: h1 :: h2 :: h3 :: h4 :: r =>
      match hexVal h1, hexVal h2, hexVal h3, hexVal h4 with
      | some a, some b, some c, some d =>
        parseStrBody (Char.ofNat (((a * 16 + b) * 16 + c) * 16 + d) :: acc) r
      | _, _, _, _ => none
    | _ => none
  | acc, c :: rest => parseStrBody (c :: acc) rest

/-- Parse a JSON natural-number token (no leading zeros). -/
def parseNatToken (cs : List Char) : Option (Nat × List Char) :=
  match cs with
  | c :: _ =>
    if c.isDigit then
      let digits := cs.takeWhile Char.isDigit
      let rest := cs.dropWhile Char.isDigit
      if c = '0' ∧ digits.length > 1 then none
      else some (digits.foldl (fun acc d => acc * 10 + (d.toNat - '0'.toNat)) 0, rest)
    else none
  | [] => none

/-- Parse a JSON integer token with optional minus sign. -/
def parseIntToken : List Char → Option (Int × List Char)
  | '-' :: rest => (parseNatToken rest).map fun p => (-(p.1 : Int), p.2)
  | cs => (parseNatToken cs).map fun p => ((p.1 : Int), p.2)

mutual

/-- Parse one JSON value; the fuel bounds recursion depth. -/
def parseVal : Nat → List Char → Option (JsVal × List Char)
  | 0, _ => none
  | fuel + 1, cs =>
    match skipWs cs with
    | 'n' :: 'u' :: 'l' :: 'l' :: rest => some (.null, rest)
    | 't' :: 'r' :: 'u' :: 'e' :: rest => some (.bool true, rest)
    | 'f' :: 'a' :: 'l' :: 's' :: 'e' :: rest => some (.bool false, rest)
    | '"' :: rest => (parseStrBody [] rest).map fun p => (.str p.1, p.2)
    | '[' :: rest =>
      match skipWs rest with
      | ']' :: rest2 => some (.arr .nil, rest2)
      | cs2 => (parseElems fuel cs2).map fun p => (.arr p.1, p.2)
    | '\x7b' :: rest =>
      match skipWs rest with
      | '\x7d' :: rest2 => some (jsObj [], rest2)
      | cs2 =>
        (parseMembers fuel cs2).map fun p =>
          (p.1.foldl (fun o kv => objSet o kv.1 kv.2) (jsObj []), p.2)
    | cs2 =>
      match parseIntToken cs2 with
      | some (n, rest) =>
        match rest with
        | '.' :: _ => none
        | 'e' :: _ => none
        | 'E' :: _ => none
        | _ => some (.num n, rest)
      | none => none

/-- Parse the elements of a non-empty JSON array. -/
def parseElems : Nat → List Char → Option (JsList × List Char)
  | 0, _ => none
  | fuel + 1, cs =>
    match parseVal fuel cs with
    | some (v, rest) =>
      match skipWs rest with
      | ',' :: rest2 => (parseElems fuel rest2).map fun p => (.cons v p.1, p.2)
      | ']' :: rest2 => some (.cons v .nil, rest2)
      | _ => none
    | none => none

/-- Parse the members of a non-empty JSON object. -/
def parseMembers : Nat → List Char → Option (List (String × JsVal) × List Char)
  | 0, _ => none
  | fuel + 1, cs =>
    match skipWs cs with
    | '"' :: rest =>
      match parseStrBody [] rest with
      | some (k, rest2) =>
        match skipWs rest2 with
        | ':' :: rest3 =>
          match parseVal fuel rest3 with
          | some (v, rest4) =>
            match skipWs rest4 with
            | ',' :: rest5 => (parseMembers fuel rest5).map fun p => ((k, v) :: p.1, p.2)
            | '\x7d' :: rest5 => some ([(k, v)], rest5)
            | _ => none
          | none => none
        | _ => none
      | none => none
    | _ => none

end

/-- Model of `JSON.parse(s)`: `none` is a thrown SyntaxError. -/
def jsonParse (s : String) : Option JsVal :=
  match parseVal (2 * s.length + 4) s.toList with
  | some (v, rest) =>
    match skipWs rest with
    | [] => some v
    | _ => none
  | none => none

/-- Escape one character for JSON string output. -/
def escapeChar (c : Char) : String :=
  if c = '"' then "\\\""
  else if c = '\\' then "\\\\"
  else if c = '\n' then "\\n"
  else if c = '\t' then "\\t"
  else if c = '\r' then "\\r"
  else String.singleton c

/-- Quote a string as a JSON string literal. -/
def quoteStr (s : String) : String :=
  "\"" ++ String.join (s.toList.map escapeChar) ++ "\""

mutual

/-- Model of `JSON.stringify`; `none` models the `undefined` result
(stringifying `undefined` itself). -/
def jStringify : JsVal → Option String
  | .null => some "null"
  | .undefined => none
  | .bool b => some (if b then "true" else "false")
  | .num n => some (toString n)
  | .nan => some "null"
  | .str s => some (quoteStr s)
  | .arr xs => some ("[" ++ String.intercalate "," (jStringifyElems xs) ++ "]")
  | .obj fs => some ("\x7b" ++ String.intercalate "," (jStringifyFields fs) ++ "\x7d")

/-- Array element strings; an `undefined` element prints as `null`. -/
def jStringifyElems : JsList → List String
  | .nil => []
  | .cons e rest => ((jStringify e).getD "null") :: jStringifyElems rest

/-- Object member strings; a member with `undefined` value is skipped. -/
def jStringifyFields : JsFields → List String
  | .nil => []
  | .cons k v rest =>
    match jStringify v with
    | some sv => (quoteStr k ++ ":" ++ sv) :: jStringifyFields rest
    | none => jStringifyFields rest

end

/-- Model of `JSON.stringify(v)` defaulting the `undefined` result to
the string `"undefined"` (never reached on the embedded call sites,
which only stringify truthy non-string values). -/
def jStringifyD (v : JsVal) : String := (jStringify v).getD "undefined"

/-! Embedding of the response normalizer.  Two variants exist in the
sources: `normalizeCheckBillResponse` of get-bills.ts (lines 141-223)
and the variant inside bulk.js (lines 105-141).  Both first mutate the
payload (writing `data.parsed_response_text`) and then branch on the
success shape.  Every operation in the bodies is optional-chained or
guarded in the source, so the defensive try/catch around them has no
reachable throwing path in this value model; the embedding is the total
function computed by the try branch. -/

/-- Canonical bill record shape returned by both normalizers.  Fields
that the source may fill with arbitrary JavaScript values keep type
`JsVal`; fields the source always fills with strings are `String`. -/
structure NormalizedBill where
  key : String
  provider_id : String
  account : String
  name : JsVal
  address : JsVal
  month : JsVal
  amount_current : String
  total : String
  amount_previous : String
  raw : JsVal

/-- Embeds the payload mutation shared by get-bills.ts lines 143-149 and
bulk.js lines 107-109: when `resp.data.response_text` is a truthy
string, `JSON.parse` it and write the result (or, on parse failure, the
raw string) into `resp.data.parsed_response_text`.  The returned value
is the payload object after the call (the source mutates in place). -/
def prepResp (resp : JsVal) : JsVal :=
  match jGet (jGet resp "data") "response_text" with
  | .str s =>
    if s ≠ "" then
      let parsed :=
        match jsonParse s with
        | some v => v
        | none => JsVal.str s
      objSet resp "data" (objSet (jGet resp "data") "parsed_response_text" parsed)
    else resp
  | _ => resp

/-- Extraction of the bill list, get-bills.ts line 155 / bulk.js
line 113: `Array.isArray(dd.bills) ? dd.bills : []`. -/
def billsOf (dd : JsVal) : JsList :=
  match jGet dd "bills" with
  | .arr xs => xs
  | _ => .nil

/-- Monetary amount of a bill line item, get-bills.ts line 159 /
bulk.js line 117: `bill.moneyAmount ?? bill.money_amount ?? bill.amount ?? 0`. -/
def billAmount (bill : JsVal) : JsVal :=
  jNullish (jGet bill "moneyAmount")
    (jNullish (jGet bill "money_amount") (jNullish (jGet bill "amount") (.num 0)))

/-- Success-branch record shared verbatim by get-bills.ts lines 160-171
and bulk.js line 118. -/
def successRecord (resp bill : JsVal) (account sku : String) : NormalizedBill :=
  let money := safeNumber (billAmount bill)
  { key := sku ++ "::" ++ account
    provider_id := sku
    account := account
    name := jOr (jGet bill "customerName") (jOr (jGet bill "customer_name") (.str "-"))
    address := jOr (jGet bill "address") (.str "-")
    month := jOr (jGet bill "month") (.str "")
    amount_current := toString money
    total := toString money
    amount_previous := "0"
    raw := resp }

/-- Human-readable reason, the chain shared by get-bills.ts lines
175-193 and bulk.js lines 121-129: parsed_response_text, then
`resp.error`, then `data.status_code`; the final fixed fallback is
applied separately because the two variants interleave it differently. -/
def reasonSteps (resp data : JsVal) : JsVal :=
  let prt := jGet data "parsed_response_text"
  let reason1 : JsVal :=
    if jTruthy prt then
      match prt with
      | .str s => .str (strTake s 400)
      | .obj _ =>
        jOr (jGet (jGet prt "error") "message")
          (jOr (jGet prt "message") (.str (strTake (jStringifyD prt) 400)))
      | .arr _ =>
        jOr (jGet (jGet prt "error") "message")
          (jOr (jGet prt "message") (.str (strTake (jStringifyD prt) 400)))
      | other => .str (strTake (jToString other) 400)
    else .str ""
  let reason2 : JsVal :=
    if ¬ jTruthy reason1 ∧ jTruthy (jGet resp "error") then
      match jGet resp "error" with
      | .str s => .str s
      | other => .str (strTake (jStringifyD other) 400)
    else reason1
  if ¬ jTruthy reason2 ∧ jTruthy (jGet data "status_code") then
    .str ("Upstream status " ++ jToString (jGet data "status_code"))
  else reason2

/-- No-success-branch record of get-bills.ts lines 197-208. -/
def noDebtRecord (resp : JsVal) (account sku : String) (address : JsVal) : NormalizedBill :=
  { key := sku ++ "::" ++ account
    provider_id := sku
    account := account
    name := .str ("(Mã " ++ account ++ ")")
    address := address
    month := .str ""
    amount_current := "0"
    total := "0"
    amount_previous := "0"
    raw := resp }

/-- Core of get-bills.ts `normalizeCheckBillResponse` (lines 151-208),
applied to the already-mutated payload. -/
def normalizeCore (resp : JsVal) (account sku : String) : NormalizedBill :=
  let data := jOr (jGet resp "data") (jsObj [])
  let dd := jOr (jGet data "data") (jsObj [])
  match jTruthy (jGet resp "success"), jTruthy (jGet data "success"), billsOf dd with
  | true, true, .cons bill _ => successRecord resp bill account sku
  | _, _, _ =>
    let reason3 := reasonSteps resp data
    let reason := if ¬ jTruthy reason3 then JsVal.str "Không nợ cước / không có dữ liệu" else reason3
    noDebtRecord resp account sku (jOr reason (.str "Không nợ cước"))

/-- Embeds `normalizeCheckBillResponse` of get-bills.ts (lines
141-223): mutate the payload, then normalize. -/
def normalizeCheckBillResponse (resp : JsVal) (account sku : String) : NormalizedBill :=
  normalizeCore (prepResp resp) account sku

/-- Strict comparison `x === 400` against the number literal, bulk.js
lines 131 and 159. -/
def isNum400 : JsVal → Bool
  | .num n => n == 400
  | _ => false

/-- Core of the bulk.js normalizer variant (lines 110-140); it differs
from the get-bills.ts core only by the extra `data.status_code === 400`
branch and the placement of the final fallback reason. -/
def normalizeCoreBulk (resp : JsVal) (account sku : String) : NormalizedBill :=
  let data := jOr (jGet resp "data") (jsObj [])
  let dd := jOr (jGet data "data") (jsObj [])
  match jTruthy (jGet resp "success"), jTruthy (jGet data "success"), billsOf dd with
  | true, true, .cons bill _ => successRecord resp bill account sku
  | _, _, _ =>
    let reason3 := reasonSteps resp data
    if isNum400 (jGet data "status_code") then
      noDebtRecord resp account sku (jOr reason3 (.str "Không nợ cước / không có dữ liệu"))
    else
      let reason := if ¬ jTruthy reason3 then JsVal.str "Không nợ cước / không có dữ liệu" else reason3
      noDebtRecord resp account sku reason

/-- Embeds the bulk.js `normalizeCheckBillResponse` (lines 105-141). -/
def normalizeBulk (resp : JsVal) (account sku : String) : NormalizedBill :=
  normalizeCoreBulk (prepResp resp) account sku

/-- First bill line item when the mutated payload satisfies the success
shape of the normalizer, `none` otherwise (derived observation used to
state the amount theorems). -/
def successBill (resp : JsVal) : Option JsVal :=
  let r := prepResp resp
  let data := jOr (jGet r "data") (jsObj [])
  let dd := jOr (jGet data "data") (jsObj [])
  match jTruthy (jGet r "success"), jTruthy (jGet data "success"), billsOf dd with
  | true, true, .cons bill _ => some bill
  | _, _, _ => none

/-- Closed form of the amount the get-bills.ts normalizer reports:
the safely-parsed line-item amount on the success path, `0` otherwise. -/
def amountTotalSpec (resp : JsVal) : Int :=
  match successBill resp with
  | some bill => safeNumber (billAmount bill)
  | none => 0

/-! Embedding of `fetchWithTimeoutAndRetry`.  The environment is a
trace: the n-th element of `trace` is the outcome the runtime delivers
for the n-th `fetch` attempt, and the n-th element of `jit` is the
random draw (`Math.floor(Math.random()*200)` is modelled as the draw
taken modulo 200).  Two variants are embedded: the canonical
get-bills.ts lines 79-136 (with the Fatal short-circuit) and the
src/unnamed/part_002 lines 536-572 variant (whose catch block has no
Fatal short-circuit). -/

/-- Outcome the environment delivers for one `fetch` attempt: an HTTP
response with body text, or a thrown transport/timeout error. -/
inductive FetchOutcome where
  | response (status : Nat) (text : String)
  | failure (msg : String)

/-- Error object built by `fetchWithTimeoutAndRetry` (the `UpstreamError`
shape of get-bills.ts line 54). -/
structure UpErr where
  status : Option Nat
  preview : Option String
  fatal : Bool
  message : String

/-- Classification of one attempt by get-bills.ts lines 88-118:
non-2xx statuses raise an error whose `fatal` flag is
`400 <= status < 500 && status != 429` with up to 1000 characters of
body as preview; a 2xx body is parsed as JSON (empty body as an empty
object), with parse failure fatal; a transport error carries no status
and no fatal flag. -/
def classifyGB (o : FetchOutcome) : Except UpErr JsVal :=
  match o with
  | .failure msg => .error ⟨none, none, false, msg⟩
  | .response status text =>
    if 200 ≤ status ∧ status ≤ 299 then
      match jsonParse (if text = "" then "\x7b\x7d" else text) with
      | some v => .ok v
      | none =>
        .error ⟨some status, some (if text ≠ "" then strTake text 1000 else "<empty>"),
                true, "Upstream returned non-JSON/invalid JSON"⟩
    else
      let snippet := if text ≠ "" then strTake text 1000 else "Status " ++ toString status
      .error ⟨some status, some snippet,
              decide (400 ≤ status ∧ status < 500 ∧ status ≠ 429),
              "Upstream " ++ toString status ++ ": " ++ snippet⟩

/-- Classification by the part_002 variant (lines 545-560): the error
thrown for a non-ok status or an unparsable body carries only a message
(no `status`, `preview` or `fatal` property is ever assigned), and the
body is parsed without the empty-body default. -/
def classifyP2 (o : FetchOutcome) : Except UpErr JsVal :=
  match o with
  | .failure msg => .error ⟨none, none, false, msg⟩
  | .response status text =>
    if 200 ≤ status ∧ status ≤ 299 then
      match jsonParse text with
      | some v => .ok v
      | none => .error ⟨none, none, false, "Upstream returned non-JSON response"⟩
    else
      let snippet := if text ≠ "" then strTake text 1000 else "Status " ++ toString status
      .error ⟨none, none, false, "Upstream " ++ toString status ++ ": " ++ snippet⟩

/-- Result of a whole `fetchWithTimeoutAndRetry` run: the value or last
error, how many times `fetch` was invoked, and the backoff delays
(without and with jitter) slept before each retry. -/
structure RunRes where
  result : Except UpErr JsVal
  attemptsUsed : Nat
  backoffs : List Nat
  waits : List Nat

/-- Retry loop of get-bills.ts lines 85-134: `remaining` is the
argument of `attempt`, `maxR` the surrounding `NEW_API_MAX_RETRIES`
used in the backoff exponent.  A fatal error aborts immediately; with
`remaining = 0` the error propagates; otherwise the loop sleeps
`min(700 * 2 ^ (maxR - remaining), 10000)` plus jitter and recurses. -/
def attemptGB (maxR : Nat) : Nat → List FetchOutcome → List Nat → RunRes
  | 0, trace, _ =>
    match classifyGB (trace.headD (.failure "fetch failed")) with
    | .ok v => ⟨.ok v, 1, [], []⟩
    | .error e => ⟨.error e, 1, [], []⟩
  | remaining + 1, trace, jit =>
    match classifyGB (trace.headD (.failure "fetch failed")) with
    | .ok v => ⟨.ok v, 1, [], []⟩
    | .error e =>
      if e.fatal then ⟨.error e, 1, [], []⟩
      else
        let backoff := min (700 * 2 ^ (maxR - (remaining + 1))) 10000
        let wait := backoff + (jit.headD 0) % 200
        let rest := attemptGB maxR remaining trace.tail jit.tail
        ⟨rest.result, rest.attemptsUsed + 1, backoff :: rest.backoffs, wait :: rest.waits⟩

/-- Embeds get-bills.ts `fetchWithTimeoutAndRetry(url, opts, timeout,
retries)` as invoked by the handler, where the `retries` argument and
the global `NEW_API_MAX_RETRIES` coincide. -/
def runFetchGB (trace : List FetchOutcome) (jit : List Nat) (retries : Nat) : RunRes :=
  attemptGB retries retries trace jit

/-- Retry loop of the part_002 variant (lines 537-571): identical
shape, but the catch block has no fatal short-circuit, so every error
is retried while attempts remain. -/
def attemptP2 (maxR : Nat) : Nat → List FetchOutcome → List Nat → RunRes
  | 0, trace, _ =>
    match classifyP2 (trace.headD (.failure "fetch failed")) with
    | .ok v => ⟨.ok v, 1, [], []⟩
    | .error e => ⟨.error e, 1, [], []⟩
  | remaining + 1, trace, jit =>
    match classifyP2 (trace.headD (.failure "fetch failed")) with
    | .ok v => ⟨.ok v, 1, [], []⟩
    | .error _ =>
      let backoff := min (700 * 2 ^ (maxR - (remaining + 1))) 10000
      let wait := backoff + (jit.headD 0) % 200
      let rest := attemptP2 maxR remaining trace.tail jit.tail
      ⟨rest.result, rest.attemptsUsed + 1, backoff :: rest.backoffs, wait :: rest.waits⟩

/-- Embeds the part_002 `fetchWithTimeoutAndRetry` as invoked there. -/
def runFetchP2 (trace : List FetchOutcome) (jit : List Nat) (retries : Nat) : RunRes :=
  attemptP2 retries retries trace jit

/-! Embedding of the per-account task bodies of the two batch
handlers. -/

/-- One entry of the batch result array. -/
inductive BatchEntry where
  | success (account : String) (normalized : NormalizedBill) (raw : JsVal)
  | failure (account : String) (error : String) (upstreamStatus : Option Nat)

/-- Whether an entry is an `ok: true` entry. -/
def BatchEntry.isOk : BatchEntry → Bool
  | .success _ _ _ => true
  | .failure _ _ _ => false

/-- Scan for the first occurrence of the pattern `Upstream (ddd)` as
matched by the regex of get-bills.ts line 306. -/
def upstreamCodeAt : List Char → Option Nat
  | 'U' :: 'p' :: 's' :: 't' :: 'r' :: 'e' :: 'a' :: 'm' :: ' ' :: d1 :: d2 :: d3 :: _ =>
    if d1.isDigit ∧ d2.isDigit ∧ d3.isDigit then
      some (((d1.toNat - 48) * 10 + (d2.toNat - 48)) * 10 + (d3.toNat - 48))
    else none
  | _ => none

/-- First match of `/Upstream (\d\x7b3\x7d)/` over the message. -/
def findUpstreamCode : List Char → Option Nat
  | [] => none
  | c :: rest =>
    match upstreamCodeAt (c :: rest) with
    | some n => some n
    | none => findUpstreamCode rest

/-- Per-account task body of the get-bills.ts handler (lines 288-316)
as a function of the settled `fetchWithTimeoutAndRetry` outcome: an ok
outcome is normalized into an `ok: true` entry; every thrown error —
including a Fatal one with status 400 — becomes an `ok: false` entry
carrying the derived upstream status and preview text. -/
def taskGetBills (fr : Except UpErr JsVal) (acc sku : String) : BatchEntry :=
  match fr with
  | .ok upstream => .success acc (normalizeCheckBillResponse upstream acc sku) upstream
  | .error e =>
    let ust : Option Nat :=
      match e.status with
      | some s => if s ≠ 0 then some s else findUpstreamCode e.message.toList
      | none => findUpstreamCode e.message.toList
    let pv : String :=
      match e.preview with
      | some p => if p ≠ "" then p else strTake e.message 400
      | none => strTake e.message 400
    let errStr :=
      if pv ≠ "" then
        "Upstream " ++ (match ust with | some s => toString s | none => "error") ++ ": " ++ pv
      else if e.message ≠ "" then e.message else "Upstream error"
    .failure acc errStr ust

/-- Strict test `Number(v) === 400`. -/
def numEq400 (v : JsVal) : Bool :=
  match toNumber v with
  | some n => n == 400
  | none => false

/-- Per-account task body of the bulk.js handler (lines 149-175): an ok
outcome whose `data.status_code` coerces to 400 yields a synthesised
`ok: true` no-debt record (line 160); other ok outcomes are normalized;
a thrown error with status 400 yields an `ok: true` no-debt record with
the preview as address (line 171); any other error an `ok: false`
entry. -/
def taskBulk (fr : Except UpErr JsVal) (acc sku : String) : BatchEntry :=
  match fr with
  | .ok upstream =>
    if jTruthy upstream ∧ jTruthy (jGet upstream "data")
        ∧ numEq400 (jGet (jGet upstream "data") "status_code") then
      .success acc
        { key := sku ++ "::" ++ acc
          provider_id := sku
          account := acc
          name := .str ("(Mã " ++ acc ++ ")")
          address := jOr (jGet (jGet upstream "data") "parsed_response_text")
            (jOr (jGet (jGet upstream "data") "response_text")
              (.str "Không nợ cước / không có dữ liệu"))
          month := .str ""
          amount_current := "0"
          total := "0"
          amount_previous := "0"
          raw := upstream } upstream
    else
      .success acc (normalizeBulk upstream acc sku) upstream
  | .error e =>
    let ust : Option Nat :=
      match e.status with
      | some s => if s ≠ 0 then some s else none
      | none => none
    let pv : Option String :=
      match e.preview with
      | some p =>
        if p ≠ "" then some p
        else if e.message ≠ "" then some (strTake e.message 400) else none
      | none => if e.message ≠ "" then some (strTake e.message 400) else none
    if (match ust with | some s => s == 400 | none => false) then
      .success acc
        { key := sku ++ "::" ++ acc
          provider_id := sku
          account := acc
          name := .str ("(Mã " ++ acc ++ ")")
          address :=
            match pv with
            | some p => if p ≠ "" then .str p else .str "Không nợ cước"
            | none => .str "Không nợ cước"
          month := .str ""
          amount_current := "0"
          total := "0"
          amount_previous := "0"
          raw := .null } .null
    else
      let fb := if e.message ≠ "" then e.message else "Upstream error"
      .failure acc (match pv with | some p => if p ≠ "" then p else fb | none => fb) ust

/-! Embedding of the input validation of the get-bills.ts handler
(lines 270-280): coerce, trim and filter the identifiers, trim the
provider code, reject with HTTP 400 when either is empty.  There is no
size check anywhere in this path. -/

/-- Convert array elements to a Lean list. -/
def jsListItems : JsList → List JsVal
  | .nil => []
  | .cons v rest => v :: jsListItems rest

/-- Embeds get-bills.ts lines 270-272: `Array.isArray` guard, then
`.map(v => String(v)).map(s => s.trim()).filter(Boolean)`. -/
def parseContractNumbers (body : JsVal) : List String :=
  match jGet body "contract_numbers" with
  | .arr xs => ((jsListItems xs).map (fun v => jsTrim (jToString v))).filter (fun s => s ≠ "")
  | _ => []

/-- Embeds get-bills.ts line 273: `(body.sku || body.provider_id || "").toString().trim()`. -/
def parseSku (body : JsVal) : String :=
  jsTrim (jToString (jOr (jGet body "sku") (jOr (jGet body "provider_id") (.str ""))))

/-- Validation failure answered synchronously with HTTP 400. -/
inductive ValidationError where
  | missingContracts
  | missingSku
deriving DecidableEq, Repr

/-- Embeds get-bills.ts lines 275-280: the two validation rejections,
answered before any task is built; on success the handler proceeds to
build one upstream task per surviving identifier. -/
def validateBulkReq (body : JsVal) : Except ValidationError (List String × String) :=
  let contracts := parseContractNumbers body
  let sku := parseSku body
  if contracts.isEmpty then .error .missingContracts
  else if sku = "" then .error .missingSku
  else .ok (contracts, sku)

/-! Embedding of the batch orchestration of the get-bills.ts handler
(lines 282-319): every identifier is wrapped in a `p-limit` task, all
tasks are created at once in input order, and `Promise.all` collects
one slot per input index.  The scheduler below is a small-step model of
this: tasks start eagerly in queue (= input) order while fewer than
`k` are running, and an adversarial schedule picks which running task
settles next; a settled task writes its own slot.  `res i` is the
settled outcome of task `i` (the task bodies never throw). -/

/-- Scheduler state: `started` tasks have begun (p-limit dequeues in
FIFO order so these are exactly `0..started-1`), `running` are started
and unsettled, `slots` hold settled outcomes by input index, `order`
records the start order, `hwm` the high-water mark of simultaneously
running tasks. -/
structure SimSt (α : Type) where
  started : Nat
  running : List Nat
  slots : List (Option α)
  order : List Nat
  hwm : Nat

/-- Initial state for `n` tasks. -/
def simInit (α : Type) (n : Nat) : SimSt α :=
  ⟨0, [], List.replicate n none, [], 0⟩

/-- Start waiting tasks while a slot is free, in FIFO order: `p-limit`
runs a submitted task immediately while `activeCount < concurrency`
and dequeues in submission order afterwards. -/
def fill (k n : Nat) (s : SimSt α) : SimSt α :=
  let c := min (k - s.running.length) (n - s.started)
  { s with
    started := s.started + c
    running := s.running ++ List.range' s.started c
    order := s.order ++ List.range' s.started c
    hwm := max s.hwm (s.running.length + c) }

/-- Settle one running task, chosen by the schedule entry `c` (taken
modulo the number of running tasks): its outcome `res i` is written to
slot `i`, as `Promise.all` records each task's result at the task's own
index. -/
def settle (res : Nat → α) (c : Nat) (s : SimSt α) : SimSt α :=
  match s.running with
  | [] => s
  | _ :: _ =>
    let j := c % s.running.length
    let i := s.running.getD j 0
    { s with
      running := s.running.erase i
      slots := s.slots.set i (some (res i)) }

/-- Run `fuel` scheduler rounds: refill free slots, then settle one
task picked by the schedule. -/
def simLoop (k n : Nat) (res : Nat → α) : Nat → List Nat → SimSt α → SimSt α
  | 0, _, s => s
  | fuel + 1, sched, s =>
    let s1 := fill k n s
    let s2 := settle res (sched.headD 0) s1
    simLoop k n res fuel sched.tail s2

/-- Whole batch run: `n` tasks under concurrency `k`, with completion
order chosen by `sched`; `n` rounds settle all `n` tasks. -/
def runSim (α : Type) (k n : Nat) (res : Nat → α) (sched : List Nat) : SimSt α :=
  simLoop k n res n sched (simInit α n)

/-- Results array extracted from the final state. -/
def simResults (s : SimSt α) (dflt : α) : List α :=
  s.slots.map (fun o => o.getD dflt)

/-! Helper lemmas about the normalizer, shared by several claims. -/

/-- Fields that every branch of the get-bills.ts normalizer core fills
identically. -/
lemma normalizeCore_static_fields (r : JsVal) (account sku : String) :
    (normalizeCore r account sku).key = sku ++ "::" ++ account ∧
    (normalizeCore r account sku).provider_id = sku ∧
    (normalizeCore r account sku).account = account ∧
    (normalizeCore r account sku).amount_previous = "0" ∧
    (normalizeCore r account sku).raw = r := by
  unfold normalizeCore
  dsimp only
  rcases jTruthy (jGet r "success") <;>
    rcases jTruthy (jGet (jOr (jGet r "data") (jsObj [])) "success") <;>
    rcases billsOf (jOr (jGet (jOr (jGet r "data") (jsObj [])) "data") (jsObj [])) <;>
    simp [successRecord, noDebtRecord]

/-- The reported amount strings agree with the closed form
`amountTotalSpec` in every branch. -/
lemma normalize_amount_eq (resp : JsVal) (account sku : String) :
    (normalizeCheckBillResponse resp account sku).total = toString (amountTotalSpec resp) ∧
    (normalizeCheckBillResponse resp account sku).amount_current = toString (amountTotalSpec resp) := by
  unfold normalizeCheckBillResponse normalizeCore amountTotalSpec successBill
  dsimp only
  rcases h1 : jTruthy (jGet (prepResp resp) "success") <;>
    rcases h2 : jTruthy (jGet (jOr (jGet (prepResp resp) "data") (jsObj [])) "success") <;>
    rcases h3 : billsOf (jOr (jGet (jOr (jGet (prepResp resp) "data") (jsObj [])) "data") (jsObj []))
      with _ | ⟨bill, rest⟩ <;>
    simp [h1, h2, h3, successRecord, noDebtRecord] <;> rfl

/-- Non-finite coercions are replaced by zero. -/
lemma safeNumber_of_toNumber_none (v : JsVal) (h : toNumber v = none) : safeNumber v = 0 := by
  unfold safeNumber
  rw [h]

/-- C3: for every payload (null, non-object, malformed or
partially-shaped), the get-bills.ts normalizer returns a well-formed
NormalizedBill — correct key, provider and account, zero previous
amount, raw set to the (mutated) payload, and amount strings equal to
the closed-form amount — and it never throws, being a total function of
the payload in this embedding; a non-finite (absent or unparsable)
monetary coercion defaults to 0, so the no-success path always reports
"0". -/
theorem c3_normalizer_totality :
    (∀ resp account sku,
      (normalizeCheckBillResponse resp account sku).key = sku ++ "::" ++ account ∧
      (normalizeCheckBillResponse resp account sku).provider_id = sku ∧
      (normalizeCheckBillResponse resp account sku).account = account ∧
      (normalizeCheckBillResponse resp account sku).amount_previous = "0" ∧
      (normalizeCheckBillResponse resp account sku).total = toString (amountTotalSpec resp) ∧
      (normalizeCheckBillResponse resp account sku).amount_current = toString (amountTotalSpec resp) ∧
      (normalizeCheckBillResponse resp account sku).raw = prepResp resp) ∧
    (∀ v, toNumber v = none → safeNumber v = 0) ∧
    (∀ resp account sku, successBill resp = none →
      (normalizeCheckBillResponse resp account sku).total = "0") := by
  refine ⟨fun resp account sku => ?_, fun v h => safeNumber_of_toNumber_none v h,
    fun resp account sku h => ?_⟩
  · have hs := normalizeCore_static_fields (prepResp resp) account sku
    have ha := normalize_amount_eq resp account sku
    exact ⟨hs.1, hs.2.1, hs.2.2.1, hs.2.2.2.1, ha.1, ha.2, hs.2.2.2.2⟩
  · have ha := (normalize_amount_eq resp account sku).1
    rw [ha]
    unfold amountTotalSpec
    rw [h]
    rfl

/-- Witness for C3 at concrete inputs: an unparsable string amount
coerces to zero via the theorem's second component. -/
theorem c3_normalizer_totality_witness : safeNumber (JsVal.str "abc") = 0 :=
  c3_normalizer_totality.2.1 (JsVal.str "abc") rfl

/-- Payload whose single bill line item carries a negative amount. -/
def negAmountResp : JsVal :=
  jsObj [("success", .bool true),
         ("data", jsObj [("success", .bool true),
                         ("data", jsObj [("bills", jsArr [jsObj [("moneyAmount", .num (-5))]])])])]

/-- C7 counterexample: the claimed invariant `amountTotal >= 0` fails —
a success payload whose line item carries `moneyAmount: -5` passes
`safeNumber` unchanged (it is finite), so the normalizer reports the
negative total "-5". -/
theorem c7_amount_nonneg_counterexample :
    amountTotalSpec negAmountResp = -5 ∧
    (normalizeCheckBillResponse negAmountResp "A" "P").total = "-5" ∧
    (normalizeCheckBillResponse negAmountResp "A" "P").amount_current = "-5" ∧
    ((-5 : Int) < 0) :=
  ⟨rfl, rfl, rfl, by decide⟩

/-- C7 amended: `amountTotal` is always the decimal string of a finite
integer (the closed-form amount, which defaults to 0 for absent or
unparsable upstream amounts since a non-finite coercion is replaced by
0), but it is not guaranteed non-negative: a finite negative upstream
amount passes through. -/
theorem c7_amount_amended :
    (∀ resp account sku, ∃ n : Int,
      (normalizeCheckBillResponse resp account sku).total = toString n ∧
      (normalizeCheckBillResponse resp account sku).amount_current = toString n ∧
      n = amountTotalSpec resp) ∧
    (∀ v, toNumber v = none → safeNumber v = 0) := by
  refine ⟨fun resp account sku => ?_, fun v h => safeNumber_of_toNumber_none v h⟩
  have ha := normalize_amount_eq resp account sku
  exact ⟨amountTotalSpec resp, ha.1, ha.2, rfl⟩

/-- Witness for C7 at a concrete input: the non-finite coercion of
`NaN` defaults to zero via the theorem's second component. -/
theorem c7_amount_amended_witness : safeNumber JsVal.nan = 0 :=
  c7_amount_amended.2 JsVal.nan rfl

/-- Fatal upstream error with status 400 as built by
`fetchWithTimeoutAndRetry` for an HTTP 400 response. -/
def err400 : UpErr :=
  ⟨some 400, some "Quý khách không nợ cước", true, "Upstream 400: Quý khách không nợ cước"⟩

/-- C1 counterexample: in the get-bills.ts handler the catch block
(lines 304-315) has no status-400 special case, so a Fatal classified
error with status 400 becomes an `ok: false` failure entry, not an
`ok: true` bill. -/
theorem c1_status400_counterexample :
    taskGetBills (Except.error err400) "A2" "P1" =
      BatchEntry.failure "A2" "Upstream 400: Quý khách không nợ cước" (some 400) ∧
    (taskGetBills (Except.error err400) "A2" "P1").isOk = false :=
  ⟨rfl, rfl⟩

/-- C1 amended: the status-400 remap exists only in the bulk.js edge
handler — there an error carrying status 400 yields an `ok: true` entry
whose NormalizedBill has all amounts zero and the error's preview text
as the address; the get-bills.ts handler instead surfaces every caught
error, including a Fatal 400, as an `ok: false` failure entry. -/
theorem c1_status400_amended (e : UpErr) (acc sku p : String)
    (h4 : e.status = some 400) (hp : e.preview = some p) (hne : p ≠ "") :
    taskBulk (Except.error e) acc sku =
      BatchEntry.success acc
        { key := sku ++ "::" ++ acc
          provider_id := sku
          account := acc
          name := .str ("(Mã " ++ acc ++ ")")
          address := .str p
          month := .str ""
          amount_current := "0"
          total := "0"
          amount_previous := "0"
          raw := .null } .null ∧
    (taskGetBills (Except.error e) acc sku).isOk = false := by
  constructor
  · unfold taskBulk
    dsimp only
    rw [h4, hp]
    simp [hne]
  · unfold taskGetBills BatchEntry.isOk
    rfl

/-- Witness for C1 at the concrete error `err400`. -/
theorem c1_status400_amended_witness :
    taskBulk (Except.error err400) "A2" "P1" =
      BatchEntry.success "A2"
        { key := "P1::A2"
          provider_id := "P1"
          account := "A2"
          name := .str "(Mã A2)"
          address := .str "Quý khách không nợ cước"
          month := .str ""
          amount_current := "0"
          total := "0"
          amount_previous := "0"
          raw := .null } .null ∧
    (taskGetBills (Except.error err400) "A2" "P1").isOk = false :=
  c1_status400_amended err400 "A2" "P1" "Quý khách không nợ cước" rfl rfl (by decide)

/-- Body of 1500 characters, used to exhibit the 1000-character preview
truncation. -/
def longBody : String := ⟨List.replicate 1500 'x'⟩

/-- C4: in the canonical get-bills.ts retry loop a 404 (like every 4xx
except 429) is classified Fatal — carrying at most 1000 characters of
the body as preview — and aborts after exactly one fetch invocation,
while 429, 5xx and transport errors are retried; but the duplicated
variant in src/unnamed/part_002 (lines 536-572) throws the same error
on both sides of its dead `if` and its catch block never consults a
fatal flag, so there a 404 is retried until attempts are exhausted
(four invocations with retries = 3). -/
theorem c4_fatal_shortcircuit_part2_bug :
    (runFetchGB [.response 404 "not found"] [] 3).attemptsUsed = 1 ∧
    (runFetchGB [.response 404 "not found"] [] 3).result =
      Except.error ⟨some 404, some "not found", true, "Upstream 404: not found"⟩ ∧
    (runFetchGB [.response 404 longBody] [] 3).result =
      Except.error ⟨some 404, some (strTake longBody 1000), true,
        "Upstream 404: " ++ strTake longBody 1000⟩ ∧
    (strTake longBody 1000).length = 1000 ∧
    (runFetchGB [.response 429 "slow down", .response 200 "\x7b\x7d"] [0] 3).attemptsUsed = 2 ∧
    (runFetchGB [.response 503 "oops", .response 200 "\x7b\x7d"] [0] 3).attemptsUsed = 2 ∧
    (runFetchGB [.failure "timeout", .response 200 "\x7b\x7d"] [0] 3).attemptsUsed = 2 ∧
    (runFetchP2 (List.replicate 4 (.response 404 "not found")) [0, 0, 0] 3).attemptsUsed = 4 :=
  ⟨rfl, rfl, rfl, rfl, rfl, rfl, rfl, rfl⟩

/-- Payload whose `data.response_text` is a truthy string: the
normalizers write a `parsed_response_text` field into it. -/
def mutResp : JsVal := jsObj [("data", jsObj [("response_text", .str "hello")])]

/-- C9 counterexample: the normalizer is not mutation-free — on a
payload whose `data.response_text` is a truthy string it writes the
field `data.parsed_response_text` into the payload object it received
(get-bills.ts line 145 / bulk.js line 108), so the payload after the
call differs from the payload before it. -/
theorem c9_purity_counterexample :
    jGet (jGet mutResp "data") "parsed_response_text" = JsVal.undefined ∧
    jGet (jGet (prepResp mutResp) "data") "parsed_response_text" = JsVal.str "hello" ∧
    prepResp mutResp ≠ mutResp := by
  refine ⟨rfl, rfl, fun h => ?_⟩
  have h2 := congrArg (fun v => jGet (jGet v "data") "parsed_response_text") h
  exact JsVal.noConfusion (show JsVal.str "hello" = JsVal.undefined from h2)

/-! Frame lemmas for the payload mutation. -/

/-- Setting a key makes it readable. -/
lemma jFindField_setField_self : ∀ (fs : JsFields) (k : String) (v : JsVal),
    jFindField (setField fs k v) k = some v
  | .nil, k, v => by simp [setField, jFindField]
  | .cons k0 v0 rest, k, v => by
    by_cases h : k0 = k
    · simp [setField, jFindField, h]
    · simp [setField, jFindField, h, jFindField_setField_self rest k v]

/-- Setting a key leaves every other key unchanged. -/
lemma jFindField_setField_ne : ∀ (fs : JsFields) (k f : String) (v : JsVal), f ≠ k →
    jFindField (setField fs k v) f = jFindField fs f
  | .nil, k, f, v, h => by
    have hk : ¬ k = f := fun hh => h hh.symm
    simp [setField, jFindField, hk]
  | .cons k0 v0 rest, k, f, v, h => by
    by_cases h0 : k0 = k
    · subst h0
      have hk : ¬ k0 = f := fun hh => h hh.symm
      simp [setField, jFindField, hk]
    · simp [setField, jFindField, h0, jFindField_setField_ne rest k f v h]

/-- A receiver with a defined property is an object. -/
lemma jGet_obj_of_defined (v : JsVal) (k : String) (h : jGet v k ≠ JsVal.undefined) :
    ∃ fs, v = JsVal.obj fs := by
  cases v <;> first | exact absurd rfl h | exact ⟨_, rfl⟩

/-- Whether the normalizers' mutation guard fires: `data.response_text`
is a truthy string. -/
def hasRespText (resp : JsVal) : Bool :=
  match jGet (jGet resp "data") "response_text" with
  | .str s => s ≠ ""
  | _ => false

/-- C9 amended: per call the normalizer is deterministic (a pure
function of its inputs in this embedding), and its only side effect on
the payload is writing `data.parsed_response_text` when
`data.response_text` is a truthy string: payloads failing that guard
are returned untouched, and even when the guard fires every other field
of `data` and every top-level field other than `data` is unchanged. -/
theorem c9_normalizer_frame_amended :
    (∀ resp, hasRespText resp = false → prepResp resp = resp) ∧
    (∀ resp f, f ≠ "parsed_response_text" →
      jGet (jGet (prepResp resp) "data") f = jGet (jGet resp "data") f) ∧
    (∀ resp g, g ≠ "data" → jGet (prepResp resp) g = jGet resp g) := by
  have key : ∀ resp, prepResp resp = resp ∨
      (hasRespText resp = true ∧ ∃ fs dfs parsed,
        resp = JsVal.obj fs ∧ jGet resp "data" = JsVal.obj dfs ∧
        prepResp resp = JsVal.obj (setField fs "data"
          (JsVal.obj (setField dfs "parsed_response_text" parsed)))) := by
    intro resp
    unfold prepResp
    cases hrt : jGet (jGet resp "data") "response_text" with
    | str s =>
      by_cases hs : s = ""
      · subst hs
        simp
      · right
        have hd : ∃ dfs, jGet resp "data" = JsVal.obj dfs := by
          apply jGet_obj_of_defined
          rw [hrt]
          intro hcon
          exact JsVal.noConfusion hcon
        obtain ⟨dfs, hd⟩ := hd
        have hr : ∃ fs, resp = JsVal.obj fs := by
          apply jGet_obj_of_defined resp "data"
          rw [hd]
          intro hcon
          exact JsVal.noConfusion hcon
        obtain ⟨fs, hr⟩ := hr
        refine ⟨by unfold hasRespText; rw [hrt]; simp [hs],
          fs, dfs, (match jsonParse s with | some v => v | none => JsVal.str s), hr, hd, ?_⟩
        simp only [jsonParse]
        simp [hs]
        rw [hd, hr]
        simp [objSet]
    | null => simp
    | undefined => simp
    | bool b => simp
    | num n => simp
    | nan => simp
    | arr es => simp
    | obj fs2 => simp
  refine ⟨fun resp hg => ?_, fun resp f hf => ?_, fun resp g hg => ?_⟩
  · rcases key resp with h | ⟨ht, _⟩
    · exact h
    · rw [hg] at ht
      exact Bool.noConfusion ht
  · rcases key resp with h | ⟨_, fs, dfs, parsed, hr, hd, hp⟩
    · rw [h]
    · rw [hp, hd]
      have hdata : jGet (JsVal.obj (setField fs "data"
          (JsVal.obj (setField dfs "parsed_response_text" parsed)))) "data" =
          JsVal.obj (setField dfs "parsed_response_text" parsed) := by
        simp [jGet, jFindField_setField_self]
      rw [hdata]
      simp [jGet, jFindField_setField_ne dfs "parsed_response_text" f parsed hf]
  · rcases key resp with h | ⟨_, fs, dfs, parsed, hr, hd, hp⟩
    · rw [h]
    · rw [hp, hr]
      simp [jGet, jFindField_setField_ne fs "data" g _ hg]

/-- Witness for C9 at the concrete payload `mutResp`: the untouched
field `response_text` reads the same before and after the call. -/
theorem c9_normalizer_frame_amended_witness :
    jGet (jGet (prepResp mutResp) "data") "response_text" =
      jGet (jGet mutResp "data") "response_text" :=
  c9_normalizer_frame_amended.2.1 mutResp "response_text" (by decide)

/-- Request body submitting a batch of 1000 identifiers. -/
def bigBatchBody : JsVal :=
  jsObj [("contract_numbers", JsVal.arr (jsListOf (List.replicate 1000 (.str "A")))),
         ("sku", .str "P")]

/-- C8 counterexample: there is no maximum-batch-size check anywhere in
the validation path (get-bills.ts lines 270-280) — a batch of 1000
identifiers is accepted in full, so no "configured maximum" exists past
which a batch is rejected. -/
theorem c8_no_max_batch_counterexample :
    validateBulkReq bigBatchBody = .ok (List.replicate 1000 "A", "P") ∧
    (List.replicate 1000 "A").length = 1000 :=
  ⟨rfl, rfl⟩

/-- C8 amended: validation runs synchronously before any task is built
and rejects exactly an identifier list that is empty after
trimming/filtering (first) or an empty provider code (second); on
success every surviving identifier is passed through — no truncation
and no size limit. -/
theorem c8_validation_amended :
    (∀ body, parseContractNumbers body = [] →
      validateBulkReq body = .error .missingContracts) ∧
    (∀ body, parseContractNumbers body ≠ [] → parseSku body = "" →
      validateBulkReq body = .error .missingSku) ∧
    (∀ body, parseContractNumbers body ≠ [] → parseSku body ≠ "" →
      validateBulkReq body = .ok (parseContractNumbers body, parseSku body)) := by
  refine ⟨fun body h => ?_, fun body h1 h2 => ?_, fun body h1 h2 => ?_⟩
  · unfold validateBulkReq
    simp [h]
  · unfold validateBulkReq
    simp [h1, h2]
  · unfold validateBulkReq
    simp [h1, h2]

/-- Request body with identifiers that need trimming and filtering. -/
def smallBatchBody : JsVal :=
  jsObj [("contract_numbers", jsArr [.str " A1 ", .str "", .str "B2"]),
         ("sku", .str " P1 ")]

/-- Witness for C8 at a concrete body: blanks are filtered, the rest is
trimmed, and both survivors reach the task list. -/
theorem c8_validation_amended_witness :
    validateBulkReq smallBatchBody = .ok (["A1", "B2"], "P1") :=
  c8_validation_amended.2.2 smallBatchBody (by decide) (by decide)

/-- Whether an attempt outcome is a retryable (non-fatal) failure under
the get-bills.ts classification. -/
def retryFailsGB (o : FetchOutcome) : Bool :=
  match classifyGB o with
  | .error e => !e.fatal
  | .ok _ => false

/-- Error object an attempt outcome classifies to (dummy for
successes). -/
def classifyErrGB (o : FetchOutcome) : UpErr :=
  match classifyGB o with
  | .error e => e
  | .ok _ => ⟨none, none, false, ""⟩

/-- The retry loop invokes `fetch` at most `remaining + 1` times. -/
lemma attemptGB_attempts_le : ∀ (maxR remaining : Nat) (trace : List FetchOutcome)
    (jit : List Nat), (attemptGB maxR remaining trace jit).attemptsUsed ≤ remaining + 1
  | maxR, 0, trace, jit => by
    unfold attemptGB
    split <;> simp
  | maxR, remaining + 1, trace, jit => by
    have ih := attemptGB_attempts_le maxR remaining trace.tail jit.tail
    unfold attemptGB
    split
    · simp
    · split
      · simp
      · dsimp only
        omega

/-- When every delivered outcome is a retryable failure and the trace
is long enough, the loop exhausts all attempts and propagates the error
of the last attempt. -/
lemma attemptGB_exhaust : ∀ (maxR remaining : Nat) (trace : List FetchOutcome)
    (jit : List Nat), (∀ o ∈ trace, retryFailsGB o = true) → remaining < trace.length →
    (attemptGB maxR remaining trace jit).result =
      .error (classifyErrGB (trace.getD remaining (.failure "fetch failed"))) ∧
    (attemptGB maxR remaining trace jit).attemptsUsed = remaining + 1
  | maxR, 0, trace, jit, h1, h2 => by
    match trace with
    | [] => simp at h2
    | o :: rest =>
      have ho := h1 o (List.mem_cons_self o rest)
      unfold retryFailsGB at ho
      unfold attemptGB classifyErrGB
      cases hc : classifyGB o with
      | ok v => rw [hc] at ho; simp at ho
      | error e => simp [hc]
  | maxR, remaining + 1, trace, jit, h1, h2 => by
    match trace with
    | [] => simp at h2
    | o :: rest =>
      have ho := h1 o (List.mem_cons_self o rest)
      unfold retryFailsGB at ho
      have ih := attemptGB_exhaust maxR remaining rest jit.tail
        (fun x hx => h1 x (List.mem_cons_of_mem o hx))
        (by simpa using Nat.lt_of_succ_lt_succ h2)
      unfold attemptGB
      cases hc : classifyGB o with
      | ok v => rw [hc] at ho; simp at ho
      | error e =>
        rw [hc] at ho
        simp only [Bool.not_eq_true'] at ho
        simp only [List.headD_cons, List.tail_cons, hc, ho, Bool.false_eq_true, if_false]
        rw [List.getD_cons_succ]
        refine ⟨ih.1, ?_⟩
        have h3 := ih.2
        omega

/-- C5: `fetchWithTimeoutAndRetry` invokes `fetch` at most
`retries + 1` times in total — the first attempt plus up to `retries`
retries, i.e. `maxAttempts` attempts for `maxAttempts = retries + 1`
(the configured `NEW_API_MAX_RETRIES` counts the retries) — and when
all attempts fail retryably it propagates the error of the final
attempt. -/
theorem c5_retry_attempt_bound :
    (∀ trace jit retries, (runFetchGB trace jit retries).attemptsUsed ≤ retries + 1) ∧
    (∀ trace jit retries, (∀ o ∈ trace, retryFailsGB o = true) → retries < trace.length →
      (runFetchGB trace jit retries).result =
        .error (classifyErrGB (trace.getD retries (.failure "fetch failed"))) ∧
      (runFetchGB trace jit retries).attemptsUsed = retries + 1) :=
  ⟨fun trace jit retries => attemptGB_attempts_le retries retries trace jit,
   fun trace jit retries h1 h2 => attemptGB_exhaust retries retries trace jit h1 h2⟩

/-- Witness for C5 at a concrete run: two transport failures with
`retries = 1` exhaust both attempts and surface the second failure. -/
theorem c5_retry_attempt_bound_witness :
    (runFetchGB [.failure "e1", .failure "e2"] [] 1).result =
      .error (classifyErrGB (FetchOutcome.failure "e2")) ∧
    (runFetchGB [.failure "e1", .failure "e2"] [] 1).attemptsUsed = 2 :=
  c5_retry_attempt_bound.2 [.failure "e1", .failure "e2"] [] 1 (by decide) (by decide)

/-- Backoff value slept before the retry that follows the k-th failure,
0-indexed: the source computes `min(700 * 2^(maxR - remaining), 10000)`
and `maxR - remaining` equals the number of retries already performed. -/
def backoffAt (i : Nat) : Nat := min (700 * 2 ^ i) 10000

/-- Shape of the recorded backoff and wait lists: the backoffs are the
closed-form values at consecutive indices starting at
`maxR - remaining`, and each wait is its backoff plus a jitter below
200. -/
lemma attemptGB_backoff_shape : ∀ (maxR remaining : Nat) (trace : List FetchOutcome)
    (jit : List Nat), remaining ≤ maxR →
    ∃ cnt, cnt ≤ remaining ∧
      (attemptGB maxR remaining trace jit).backoffs =
        (List.range' (maxR - remaining) cnt).map backoffAt ∧
      (attemptGB maxR remaining trace jit).waits.length =
        (attemptGB maxR remaining trace jit).backoffs.length ∧
      (∀ idx, ∃ j, j < 200 ∧
        (attemptGB maxR remaining trace jit).waits.getD idx 0 =
          (attemptGB maxR remaining trace jit).backoffs.getD idx 0 + j)
  | maxR, 0, trace, jit, _ => by
    unfold attemptGB
    split <;>
      exact ⟨0, Nat.le_refl 0, by simp, by simp, fun idx => ⟨0, by decide, by simp⟩⟩
  | maxR, remaining + 1, trace, jit, h => by
    obtain ⟨cnt, hcnt, hback, hlen, hwait⟩ :=
      attemptGB_backoff_shape maxR remaining trace.tail jit.tail (Nat.le_of_succ_le h)
    unfold attemptGB
    split
    · exact ⟨0, Nat.zero_le _, by simp, by simp, fun idx => ⟨0, by decide, by simp⟩⟩
    · split
      · exact ⟨0, Nat.zero_le _, by simp, by simp, fun idx => ⟨0, by decide, by simp⟩⟩
      · refine ⟨cnt + 1, by omega, ?_, ?_, ?_⟩
        · dsimp only
          have hstep : maxR - remaining = (maxR - (remaining + 1)) + 1 := by omega
          rw [hback, hstep, List.range'_succ]
          rfl
        · dsimp only
          simp [hlen]
        · intro idx
          match idx with
          | 0 => exact ⟨(jit.headD 0) % 200, Nat.mod_lt _ (by decide), by simp⟩
          | idx + 1 =>
            obtain ⟨j, hj, hw⟩ := hwait idx
            exact ⟨j, hj, by simpa using hw⟩

/-- The closed-form backoff is monotone in the retry index. -/
lemma backoffAt_mono (i : Nat) : backoffAt i ≤ backoffAt (i + 1) := by
  unfold backoffAt
  have h : 700 * 2 ^ i ≤ 700 * 2 ^ (i + 1) := by
    apply Nat.mul_le_mul_left
    exact Nat.pow_le_pow_right (by decide) (Nat.le_succ i)
  exact min_le_min h (Nat.le_refl 10000)

/-- Lists of consecutive closed-form backoffs are non-decreasing. -/
lemma backoffList_chain : ∀ (cnt a : Nat),
    List.Chain' (· ≤ ·) ((List.range' a cnt).map backoffAt)
  | 0, a => by simp
  | 1, a => by simp
  | cnt + 2, a => by
    have ih := backoffList_chain (cnt + 1) (a + 1)
    rw [List.range'_succ, List.map_cons]
    rw [List.chain'_cons']
    refine ⟨fun h hh => ?_, ih⟩
    rw [List.range'_succ, List.map_cons] at hh
    simp only [List.head?_cons, Option.mem_def, Option.some.injEq] at hh
    rw [← hh]
    exact backoffAt_mono a
  termination_by cnt _ => cnt

/-- Every closed-form backoff is at most the 10-second cap, and so is
any `getD` read of such a list. -/
lemma backoffList_getD_le (l : List Nat) (hl : ∀ b ∈ l, b ≤ 10000) :
    ∀ idx, l.getD idx 0 ≤ 10000 := by
  intro idx
  induction l generalizing idx with
  | nil => simp [List.getD]
  | cons b rest ih =>
    match idx with
    | 0 => exact hl b (List.mem_cons_self b rest)
    | idx + 1 =>
      rw [List.getD_cons_succ]
      exact ih (fun x hx => hl x (List.mem_cons_of_mem b hx)) idx

/-- Run of four retryable failures under the default `retries = 3`. -/
def fourFailures : List FetchOutcome := List.replicate 4 (.failure "err")

/-- C6 counterexample: before the retry that follows the first
Retryable failure (attemptsUsed = 1) the claim's formula demands
`min(700 * 2^1, 10000) = 1400` milliseconds plus jitter below 200; the
code waits 700 milliseconds plus jitter (exponent `maxR - remaining`
is 0 on the first retry), and `700 + 200 <= 1400`, so the actual first
wait can never equal the claimed one. -/
theorem c6_backoff_counterexample :
    (runFetchGB fourFailures [0, 0, 0] 3).backoffs = [700, 1400, 2800] ∧
    (runFetchGB fourFailures [0, 0, 0] 3).waits = [700, 1400, 2800] ∧
    (runFetchGB fourFailures [0, 0, 0] 3).attemptsUsed = 4 ∧
    700 + 200 ≤ min (700 * 2 ^ 1) 10000 :=
  ⟨rfl, rfl, rfl, by decide⟩

/-- C6 amended: before the retry that follows the k-th Retryable
failure the controller waits `min(700 * 2^(k-1), 10000)` milliseconds —
the exponent is the number of retries already performed, one less than
attemptsUsed — plus a jitter in [0, 200); the non-jitter backoff
sequence of one task is non-decreasing and never exceeds the 10-second
cap. -/
theorem c6_backoff_amended :
    (∀ trace jit retries, ∃ cnt, cnt ≤ retries ∧
      (runFetchGB trace jit retries).backoffs = (List.range cnt).map backoffAt) ∧
    (∀ trace jit retries, (runFetchGB trace jit retries).backoffs.Chain' (· ≤ ·)) ∧
    (∀ trace jit retries idx, (runFetchGB trace jit retries).backoffs.getD idx 0 ≤ 10000) ∧
    (∀ trace jit retries idx, ∃ j, j < 200 ∧
      (runFetchGB trace jit retries).waits.getD idx 0 =
        (runFetchGB trace jit retries).backoffs.getD idx 0 + j) := by
  have shape : ∀ trace jit retries, ∃ cnt, cnt ≤ retries ∧
      (runFetchGB trace jit retries).backoffs = (List.range cnt).map backoffAt := by
    intro trace jit retries
    obtain ⟨cnt, hcnt, hback, _, _⟩ :=
      attemptGB_backoff_shape retries retries trace jit (Nat.le_refl retries)
    refine ⟨cnt, hcnt, ?_⟩
    rw [List.range_eq_range']
    simpa using hback
  refine ⟨shape, fun trace jit retries => ?_, fun trace jit retries idx => ?_,
    fun trace jit retries idx => ?_⟩
  · obtain ⟨cnt, _, hback⟩ := shape trace jit retries
    rw [hback, List.range_eq_range']
    exact backoffList_chain cnt 0
  · obtain ⟨cnt, _, hback⟩ := shape trace jit retries
    rw [hback]
    apply backoffList_getD_le
    intro b hb
    simp only [List.mem_map] at hb
    obtain ⟨i, _, hi⟩ := hb
    rw [← hi]
    exact Nat.min_le_right _ _
  · obtain ⟨_, _, _, _, hwait⟩ :=
      attemptGB_backoff_shape retries retries trace jit (Nat.le_refl retries)
    exact hwait idx

/-- Invariant of the scheduler state: bounded concurrency, FIFO starts,
and slots that are written exactly once by their own task. -/
structure SimInv (k n : Nat) (res : Nat → α) (s : SimSt α) : Prop where
  started_le : s.started ≤ n
  slots_len : s.slots.length = n
  run_le_k : s.running.length ≤ k
  run_le_started : s.running.length ≤ s.started
  run_nodup : s.running.Nodup
  run_lt : ∀ i ∈ s.running, i < s.started
  run_unset : ∀ i ∈ s.running, s.slots[i]? = some none
  done_set : ∀ i, i < s.started → i ∉ s.running → s.slots[i]? = some (some (res i))
  todo_unset : ∀ i, s.started ≤ i → i < n → s.slots[i]? = some none
  order_eq : s.order = List.range s.started
  hwm_le : s.hwm ≤ k

/-- The initial state satisfies the invariant. -/
lemma simInv_init (k n : Nat) (res : Nat → α) : SimInv k n res (simInit α n) := by
  refine ⟨Nat.zero_le n, List.length_replicate n none, Nat.zero_le k, Nat.le_refl 0,
    List.nodup_nil, ?_, ?_, ?_, ?_, rfl, Nat.zero_le k⟩
  · intro i hi
    simp [simInit] at hi
  · intro i hi
    simp [simInit] at hi
  · intro i hi
    simp [simInit] at hi
  · intro i _ hi2
    simp [simInit, List.getElem?_replicate, hi2]

/-- Projections of `fill`. -/
lemma fill_started (k n : Nat) (s : SimSt α) :
    (fill k n s).started = s.started + min (k - s.running.length) (n - s.started) := rfl

/-- Running list after `fill`. -/
lemma fill_running (k n : Nat) (s : SimSt α) :
    (fill k n s).running =
      s.running ++ List.range' s.started (min (k - s.running.length) (n - s.started)) := rfl

/-- Slots are untouched by `fill`. -/
lemma fill_slots (k n : Nat) (s : SimSt α) : (fill k n s).slots = s.slots := rfl

/-- Start order after `fill`. -/
lemma fill_order (k n : Nat) (s : SimSt α) :
    (fill k n s).order =
      s.order ++ List.range' s.started (min (k - s.running.length) (n - s.started)) := rfl

/-- High-water mark after `fill`. -/
lemma fill_hwm (k n : Nat) (s : SimSt α) :
    (fill k n s).hwm =
      max s.hwm (s.running.length + min (k - s.running.length) (n - s.started)) := rfl

/-- Filling preserves the invariant. -/
lemma fill_inv {k n : Nat} {res : Nat → α} {s : SimSt α} (h : SimInv k n res s) :
    SimInv k n res (fill k n s) := by
  have hst := h.started_le
  have hrk := h.run_le_k
  have hrs := h.run_le_started
  refine ⟨?_, ?_, ?_, ?_, ?_, ?_, ?_, ?_, ?_, ?_, ?_⟩ <;>
    simp only [fill_started, fill_running, fill_slots, fill_order, fill_hwm]
  · omega
  · exact h.slots_len
  · simp only [List.length_append, List.length_range']
    omega
  · simp only [List.length_append, List.length_range']
    omega
  · refine List.Nodup.append h.run_nodup (List.nodup_range' _ _) ?_
    intro a ha ha2
    have h1 := h.run_lt a ha
    have h2 := (List.mem_range'_1.mp ha2).1
    omega
  · intro i hi
    rcases List.mem_append.mp hi with hi1 | hi2
    · have := h.run_lt i hi1
      omega
    · have := (List.mem_range'_1.mp hi2).2
      omega
  · intro i hi
    rcases List.mem_append.mp hi with hi1 | hi2
    · exact h.run_unset i hi1
    · obtain ⟨hge, hlt⟩ := List.mem_range'_1.mp hi2
      have hin : i < n := by omega
      exact h.todo_unset i hge hin
  · intro i hlt hnotin
    have hni1 : i ∉ s.running := fun hmem => hnotin (List.mem_append.mpr (Or.inl hmem))
    have hni2 : i ∉ List.range' s.started (min (k - s.running.length) (n - s.started)) :=
      fun hmem => hnotin (List.mem_append.mpr (Or.inr hmem))
    have hlt2 : i < s.started := by
      by_contra hge
      exact hni2 (List.mem_range'_1.mpr ⟨by omega, by omega⟩)
    exact h.done_set i hlt2 hni1
  · intro i hge hlt
    exact h.todo_unset i (by omega) hlt
  · rw [h.order_eq, List.range_eq_range', List.range_eq_range']
    have happ := List.range'_append_1 0 s.started (min (k - s.running.length) (n - s.started))
    simpa [Nat.add_comm] using happ
  · have := h.hwm_le
    simp only [Nat.max_le]
    omega

/-- Filling leaves the completed count unchanged. -/
lemma fill_completed {k n : Nat} {res : Nat → α} {s : SimSt α} (h : SimInv k n res s) :
    (fill k n s).started - (fill k n s).running.length =
      s.started - s.running.length := by
  have := h.run_le_started
  simp only [fill_started, fill_running, List.length_append, List.length_range']
  omega

/-- When no task is running after a fill under positive concurrency,
everything has already started and settled. -/
lemma fill_running_empty {k n : Nat} {res : Nat → α} {s : SimSt α} (h : SimInv k n res s)
    (hk : 1 ≤ k) (hempty : (fill k n s).running = []) :
    s.started = n ∧ s.running = [] := by
  rw [fill_running] at hempty
  rcases List.append_eq_nil.mp hempty with ⟨h1, h2⟩
  refine ⟨?_, h1⟩
  have hlen := congrArg List.length h2
  simp [List.length_range'] at hlen
  rw [h1] at hlen
  simp at hlen
  have hs := h.started_le
  rcases hlen with hk0 | hn0
  · omega
  · omega

/-- Settling a task when one is running: the invariant is preserved,
nothing new starts, and exactly one running task leaves. -/
lemma settle_inv_completed {k n : Nat} {res : Nat → α} {c : Nat} {s : SimSt α}
    (h : SimInv k n res s) (hne : s.running ≠ []) :
    SimInv k n res (settle res c s) ∧
    (settle res c s).started = s.started ∧
    (settle res c s).running.length + 1 = s.running.length ∧
    (settle res c s).hwm = s.hwm ∧
    (settle res c s).order = s.order := by
  have hlenpos : 0 < s.running.length := List.length_pos.mpr hne
  have hj : c % s.running.length < s.running.length := Nat.mod_lt _ hlenpos
  have key : ∃ i, i ∈ s.running ∧ settle res c s = { s with
      running := s.running.erase i, slots := s.slots.set i (some (res i)) } := by
    refine ⟨s.running.getD (c % s.running.length) 0, ?_, ?_⟩
    · rw [List.getD_eq_getElem s.running 0 hj]
      exact List.getElem_mem hj
    · rcases hrun : s.running with _ | ⟨x, xs⟩
      · exact absurd hrun hne
      · conv_lhs => unfold settle
        rw [hrun]
  obtain ⟨i, himem, heq⟩ := key
  have hilt : i < s.started := h.run_lt i himem
  have hin : i < n := by
    have := h.started_le
    omega
  have hislots : i < s.slots.length := by
    rw [h.slots_len]
    exact hin
  rw [heq]
  have herase_len : (s.running.erase i).length = s.running.length - 1 :=
    List.length_erase_of_mem himem
  refine ⟨⟨h.started_le, ?_, ?_, ?_, ?_, ?_, ?_, ?_, ?_, h.order_eq, h.hwm_le⟩,
    rfl, ?_, rfl, rfl⟩
  · simp only [List.length_set]
    exact h.slots_len
  · have := h.run_le_k
    simp only [herase_len]
    omega
  · have := h.run_le_started
    simp only [herase_len]
    omega
  · exact List.Nodup.erase i h.run_nodup
  · intro x hx
    exact h.run_lt x (List.erase_subset _ _ hx)
  · intro x hx
    obtain ⟨hxne, hxmem⟩ := (List.Nodup.mem_erase_iff h.run_nodup).mp hx
    have hne2 : ¬ i = x := fun hh => hxne hh.symm
    rw [List.getElem?_set, if_neg hne2]
    exact h.run_unset x hxmem
  · intro x hxlt hxnot
    by_cases hxi : x = i
    · subst hxi
      rw [List.getElem?_set]
      simp [hislots]
    · have hxnotrun : x ∉ s.running := by
        intro hxmem
        exact hxnot ((List.Nodup.mem_erase_iff h.run_nodup).mpr ⟨hxi, hxmem⟩)
      have hne2 : ¬ i = x := fun hh => hxi hh.symm
      rw [List.getElem?_set, if_neg hne2]
      exact h.done_set x hxlt hxnotrun
  · intro x hxge hxlt
    dsimp only at hxge
    have hxi : ¬ (i = x) := by omega
    rw [List.getElem?_set, if_neg hxi]
    exact h.todo_unset x hxge hxlt
  · simp only [herase_len]
    omega

/-- The scheduler loop preserves the invariant and, while rounds and
unsettled tasks remain, settles one task per round. -/
lemma simLoop_inv {k n : Nat} {res : Nat → α} (hk : 1 ≤ k) :
    ∀ (fuel : Nat) (sched : List Nat) (s : SimSt α), SimInv k n res s →
    SimInv k n res (simLoop k n res fuel sched s) ∧
    min n (s.started - s.running.length + fuel) ≤
      (simLoop k n res fuel sched s).started -
        (simLoop k n res fuel sched s).running.length
  | 0, sched, s, h => by
    refine ⟨h, ?_⟩
    simp only [simLoop]
    omega
  | fuel + 1, sched, s, h => by
    have h1 := fill_inv h
    by_cases hrun : (fill k n s).running = []
    · have hset : settle res (sched.headD 0) (fill k n s) = fill k n s := by
        unfold settle
        rw [hrun]
      have hse := fill_running_empty h hk hrun
      have ih := simLoop_inv hk fuel sched.tail (fill k n s) h1
      have hfc := fill_completed h
      have hcs : s.started - s.running.length = n := by
        rw [hse.2, hse.1]
        simp
      constructor
      · simp only [simLoop]
        rw [hset]
        exact ih.1
      · simp only [simLoop]
        rw [hset]
        have hc := ih.2
        rw [hfc, hcs] at hc
        omega
    · have hsi := @settle_inv_completed _ k n res (sched.headD 0) (fill k n s) h1 hrun
      have ih := simLoop_inv hk fuel sched.tail
        (settle res (sched.headD 0) (fill k n s)) hsi.1
      have hfc := fill_completed h
      have h2 := hsi.2.1
      have h3 := hsi.2.2.1
      have h4 := h1.run_le_started
      constructor
      · simp only [simLoop]
        exact ih.1
      · simp only [simLoop]
        have hc := ih.2
        omega

/-- After `n` rounds the whole batch has started in order and settled. -/
lemma runSim_complete {k n : Nat} {res : Nat → α} (sched : List Nat) (hk : 1 ≤ k) :
    SimInv k n res (runSim α k n res sched) ∧
    (runSim α k n res sched).started = n ∧
    (runSim α k n res sched).running = [] := by
  have h0 := simInv_init k n res
  have h := simLoop_inv hk n sched (simInit α n) h0
  have hc := h.2
  simp only [simInit] at hc
  have hinv := h.1
  have hle := hinv.started_le
  have hls := hinv.run_le_started
  unfold runSim
  refine ⟨hinv, ?_, ?_⟩
  · unfold runSim at hle hls
    simp only [simInit] at *
    omega
  · apply List.length_eq_zero.mp
    unfold runSim at hle hls
    simp only [simInit] at *
    omega

/-- Every slot of the finished run holds its own task's outcome. -/
lemma runSim_results {k n : Nat} {res : Nat → α} (sched : List Nat) (hk : 1 ≤ k)
    (dflt : α) :
    simResults (runSim α k n res sched) dflt = (List.range n).map res := by
  obtain ⟨hinv, hstart, hrun⟩ := runSim_complete sched hk
  have hslots : (runSim α k n res sched).slots =
      (List.range n).map (fun i => some (res i)) := by
    apply List.ext_getElem?
    intro j
    by_cases hj : j < n
    · have hjs : j < (runSim α k n res sched).started := by
        rw [hstart]
        omega
      have hjr : j ∉ (runSim α k n res sched).running := by
        rw [hrun]
        simp
      have hdone := hinv.done_set j hjs hjr
      rw [hdone, List.getElem?_map, List.getElem?_range hj]
      rfl
    · have hlen1 : (runSim α k n res sched).slots.length ≤ j := by
        rw [hinv.slots_len]
        omega
      have hlen2 : ((List.range n).map (fun i => some (res i))).length ≤ j := by
        simp
        omega
      rw [List.getElem?_eq_none hlen1, List.getElem?_eq_none hlen2]
  unfold simResults
  rw [hslots, List.map_map]
  simp [Function.comp]

/-- C2: for every validated input list, every concurrency bound of at
least 1 and every completion order (the schedule), the batch returns
exactly one entry per input identifier and the i-th entry is the i-th
identifier's own task outcome — output order equals input order. -/
theorem c2_batch_order_preserved (accounts : List String) (k : Nat) (sched : List Nat)
    (taskOf : String → BatchEntry) (hk : 1 ≤ k) :
    simResults (runSim BatchEntry k accounts.length
        (fun i => taskOf (accounts.getD i "")) sched) (.failure "" "" none) =
      accounts.map taskOf := by
  rw [runSim_results sched hk]
  apply List.ext_getElem (by simp)
  intro i h1 h2
  simp only [List.getElem_map, List.getElem_range]
  rw [List.getD_eq_getElem accounts "" (by simpa using h2)]

/-- Witness for C2: three accounts, concurrency 2, one interleaved
completion order; one entry per account, in input order. -/
theorem c2_batch_order_preserved_witness :
    simResults (runSim BatchEntry 2 (["A1", "A2", "A3"] : List String).length
        (fun i => BatchEntry.failure ((["A1", "A2", "A3"] : List String).getD i "") "" none)
        [1, 0, 0]) (.failure "" "" none) =
      [BatchEntry.failure "A1" "" none, BatchEntry.failure "A2" "" none,
       BatchEntry.failure "A3" "" none] :=
  c2_batch_order_preserved ["A1", "A2", "A3"] 2 [1, 0, 0]
    (fun a => BatchEntry.failure a "" none) (by decide)

/-- C10: for every batch under concurrency bound k at least 1 and every
completion order, the observed high-water mark of simultaneously
running tasks never exceeds k, and tasks acquire their slots in FIFO
(input) order: the recorded start order is exactly 0, 1, ..., n-1. -/
theorem c10_concurrency_cap_fifo {α : Type} (k n : Nat) (res : Nat → α)
    (sched : List Nat) (hk : 1 ≤ k) :
    (runSim α k n res sched).hwm ≤ k ∧
    (runSim α k n res sched).order = List.range n := by
  obtain ⟨hinv, hstart, _⟩ := runSim_complete sched hk
  exact ⟨hinv.hwm_le, by rw [hinv.order_eq, hstart]⟩

/-- Witness for C10: five tasks under concurrency 2 with a scrambled
completion order; the high-water mark stays at 2 or below and starts
are FIFO. -/
theorem c10_concurrency_cap_fifo_witness :
    (runSim Nat 2 5 (fun i => i) [3, 1, 0, 2, 0]).hwm ≤ 2 ∧
    (runSim Nat 2 5 (fun i => i) [3, 1, 0, 2, 0]).order = List.range 5 :=
  c10_concurrency_cap_fifo 2 5 (fun i => i) [3, 1, 0, 2, 0] (by decide)
